import Mathlib

/-!
# QKart storefront: cart reconciliation and pricing

A shallow embedding of the data-shaping functions of
`src/components/Cart.js` (`generateCartItemsFrom`, `getTotalCartValue`,
`getTotalItems`), of `isItemInCart`, `addToCart` and `debounceSearch` from
`src/components/Products.js`, and of `validateInput` and `register` from
`src/components/Register.js`.

JavaScript objects are mutable and arrays hold references.  The join
`generateCartItemsFrom` writes the `qty` field of catalog objects and pushes
those very objects into its result, so the embedding keeps the catalog as an
explicit store (`productsData`) and the returned array as a list of
references (indices) into that store.  The numbers of a cart (`cost`, `qty`)
are integers; `undefined` is `none`.  Totals are computed as the host does,
in IEEE-754 doubles (`JSNumber`): each product and each sum is rounded to the
nearest double, so they are exact only while they stay within `2^53`.

The handlers with effects (`addToCart`, `register`, `debounceSearch`) are
functions from the state before the call, and the answer of the backend where
one is awaited, to the state after it together with the requests sent and the
notifications raised.
-/

namespace QKart

/-- A catalog object (`Product` typedef of Cart.js).  The field `qty` is not
part of a product as the backend sends it; it is the field that
`generateCartItemsFrom` writes on the object, absent (`none`) until then. -/
structure Product where
  name : String
  category : String
  cost : Int
  rating : Int
  image : String
  _id : String
  qty : Option Int
  deriving DecidableEq, Repr

/-- A cart entry `{ productId, qty }` as the backend sends it.  The join also
reads a field `_id` of the entry, which the documented type does not have:
it is optional here (`none` when the entry has no such field). -/
structure CartEntry where
  productId : String
  _id : Option String
  qty : Int
  deriving DecidableEq, Repr

/-- The test of lines 56-58 of Cart.js:
`cartData[i].qty > 0 && (cartData[i].productId === productsData[j]._id ||
cartData[i]._id === productsData[j]._id)`. -/
def joinTest (e : CartEntry) (p : Product) : Bool :=
  decide (e.qty > 0) && (decide (e.productId = p._id) || decide (e._id = some p._id))

/-- The store of the join: the catalog objects (mutated in place) and the
array `cartItem` being built, whose elements are references to catalog
objects, kept as indices into `productsData`. -/
structure JoinState where
  productsData : List Product
  cartItem : List Nat
  deriving DecidableEq, Repr

/-- The body of the inner loop (lines 55-62) at catalog index `j` for the cart
entry `e`: when the test holds, `productsData[j].qty = cartData[i].qty` and
`cartItem.push(productsData[j])`. -/
def joinBody (e : CartEntry) (s : JoinState) (j : Nat) : JoinState :=
  match s.productsData[j]? with
  | none => s
  | some p =>
    if joinTest e p then
      { productsData := s.productsData.set j { p with qty := some e.qty },
        cartItem := s.cartItem ++ [j] }
    else s

/-- The inner loop `for (let j = 0; j < productsData.length; j++)`. -/
def joinInner (s : JoinState) (e : CartEntry) : JoinState :=
  (List.range s.productsData.length).foldl (joinBody e) s

/-- The outer loop `for (let i = 0; i < cartData.length; i++)`. -/
def joinOuter (cartData : List CartEntry) (s : JoinState) : JoinState :=
  cartData.foldl joinInner s

/-- The function `generateCartItemsFrom` of Cart.js.  An absent `cartData`
gives the absent result; otherwise the result is the store after the two
loops, started from `cartItem = []`. -/
def generateCartItemsFrom (cartData : Option (List CartEntry))
    (productsData : List Product) : Option JoinState :=
  match cartData with
  | none => none
  | some cart => some (joinOuter cart { productsData := productsData, cartItem := [] })

/-- The line items a caller reads from the returned array: each reference
followed into the store as it is after the call. -/
def lineItems (s : JoinState) : List Product :=
  s.cartItem.filterMap (fun j => s.productsData[j]?)

/-- A JavaScript number (an IEEE-754 double) whose value is an integer, or
one of `Infinity`, `-Infinity`, `NaN`.  The numbers of a cart (`cost`, `qty`)
are taken to be integers; the sign of zero is not kept. -/
inductive JSNumber where
  | finite (z : Int)
  | posInf
  | negInf
  | nan
  deriving DecidableEq, Repr

/-- The number of low bits that `n` loses when it is kept on 53 bits: the
least `e`, counted up from the second argument, with `n / 2^e < 2^53`.  The
first argument bounds the search; `none` means that `n` is `2^1076` or more. -/
def shiftFor (n : Nat) : Nat → Nat → Option Nat
  | 0, _ => none
  | fuel + 1, e =>
    if n / 2 ^ e < 9007199254740992 then some e else shiftFor n fuel (e + 1)

/-- The double nearest to the integer `z`, ties to the even significand:
every integer of magnitude at most `2^53 = 9007199254740992` is a double;
above that the significand keeps 53 bits, and a result of magnitude `2^1024`
or more is an infinity. -/
def roundDouble (z : Int) : JSNumber :=
  if z.natAbs ≤ 9007199254740992 then JSNumber.finite z
  else
    match shiftFor z.natAbs 1024 0 with
    | none => if z < 0 then JSNumber.negInf else JSNumber.posInf
    | some e =>
      let q := z.natAbs / 2 ^ e
      let r := z.natAbs % 2 ^ e
      let q1 := if 2 ^ e < 2 * r ∨ (2 * r = 2 ^ e ∧ q % 2 = 1) then q + 1 else q
      if 972 ≤ e ∨ (971 ≤ e ∧ q1 = 9007199254740992) then
        (if z < 0 then JSNumber.negInf else JSNumber.posInf)
      else JSNumber.finite (z.sign * ((q1 * 2 ^ e : Nat) : Int))

/-- The product `a * b` of two finite numbers, as the host computes it. -/
def jsMul (a b : Int) : JSNumber := roundDouble (a * b)

/-- The sum `a + b` of two numbers, as the host computes it. -/
def jsAdd : JSNumber → JSNumber → JSNumber
  | JSNumber.finite a, JSNumber.finite b => roundDouble (a + b)
  | JSNumber.nan, _ => JSNumber.nan
  | _, JSNumber.nan => JSNumber.nan
  | JSNumber.posInf, JSNumber.negInf => JSNumber.nan
  | JSNumber.negInf, JSNumber.posInf => JSNumber.nan
  | JSNumber.posInf, _ => JSNumber.posInf
  | _, JSNumber.posInf => JSNumber.posInf
  | JSNumber.negInf, _ => JSNumber.negInf
  | _, JSNumber.negInf => JSNumber.negInf

/-- One step of the loop of `getTotalCartValue` (Cart.js lines 82-85):
`total += items[i].cost * items[i].qty`, in the arithmetic of the host; a
missing `qty` makes the product, and so the total, `NaN`. -/
def totalStep (total : JSNumber) (it : Product) : JSNumber :=
  match it.qty with
  | some q => jsAdd total (jsMul it.cost q)
  | none => JSNumber.nan

/-- The function `getTotalCartValue` of Cart.js; the parameter defaults to
`[]` when absent. -/
def getTotalCartValue (items : Option (List Product)) : JSNumber :=
  (items.getD []).foldl totalStep (JSNumber.finite 0)

/-- Specification side of the total: the exact value `cost * qty` of a line
item (0 for an item without `qty`). -/
def lineValue (it : Product) : Int := it.cost * it.qty.getD 0

/-- The function `getTotalItems` of Cart.js; the parameter defaults to `[]`
when absent. -/
def getTotalItems (items : Option (List Product)) : Nat :=
  (items.getD []).length

/-- The function `isItemInCart` of Products.js: a scan that returns `true` at
the first element whose `_id` is `productId`, `false` after the last. -/
def isItemInCart : List Product → String → Bool
  | [], _ => false
  | it :: rest, productId =>
    if it._id = productId then true else isItemInCart rest productId

/-- A catalog product as the backend sends it: no `qty` field. -/
def mkProduct (id : String) (cost : Int) : Product :=
  { name := "item", category := "misc", cost := cost, rating := 4,
    image := "img", _id := id, qty := none }

/-- The write of line 60 seen on one catalog object: its `qty` becomes the
entry's when the test holds, otherwise the object is left as it is. -/
def writeQty (e : CartEntry) (p : Product) : Product :=
  if joinTest e p then { p with qty := some e.qty } else p

/-- The catalog indices at which the test of the entry `e` holds, in
increasing order. -/
def hits (e : CartEntry) (pd : List Product) : List Nat :=
  (List.range pd.length).filter (fun j => (pd[j]?).any (joinTest e))

/-- All the writes of a run of the join, seen on one catalog object: the
entries are applied to it in cart order. -/
def writeAll (cart : List CartEntry) (p : Product) : Product :=
  cart.foldl (fun q e => writeQty e q) p

/-- A product record with its `qty` field removed: what the record holds
besides the field written by the join. -/
def eraseQty (p : Product) : Product := { p with qty := none }

/-- Specification side of the ordering claim: the index pairs `(i, j)` with
`cartData[i].qty > 0` and `cartData[i]` matching `productsData[j]` under the test
of the join, enumerated by increasing `i` and, for equal `i`, increasing `j`. -/
def matchingPairs (cart : List CartEntry) (pd : List Product) : List (Nat × Nat) :=
  (List.range cart.length).flatMap (fun i =>
    ((List.range pd.length).filter (fun j =>
      match cart[i]?, pd[j]? with
      | some e, some p => joinTest e p
      | _, _ => false)).map (fun j => (i, j)))

/-- Specification side of the end-to-end claim: the cost of the catalog
product whose `_id` is `id` (0 when the catalog has none). -/
def costOf (catalog : List Product) (id : String) : Int :=
  match catalog.find? (fun p => decide (p._id = id)) with
  | some p => p.cost
  | none => 0

/-- Specification side of the end-to-end claim: the cart entries with
`qty > 0` whose `productId` is the `_id` of a catalog product. -/
def pricedEntries (cart : List CartEntry) (catalog : List Product) : List CartEntry :=
  cart.filter (fun e => decide (e.qty > 0) && catalog.any (fun p => decide (p._id = e.productId)))

/-- A call `enqueueSnackbar(message, { variant })` of the notification sink. -/
structure Snackbar where
  message : String
  variant : String
  deriving DecidableEq, Repr

/-- A request `POST /cart` with body `{ productId, qty }` and the bearer
token of its `Authorization` header. -/
structure CartPost where
  token : String
  productId : String
  qty : Int
  deriving DecidableEq, Repr

/-- What `await axios.post(...)` of `addToCart` gives: the promise resolves
with `res.data` (absent when the body holds no cart), or it rejects (network
error or error status). -/
inductive PostReply where
  | resolved (data : Option (List CartEntry))
  | rejected
  deriving DecidableEq, Repr

/-- The local cart state of the `Products` component: `cartItemId` (the cart
entries) and `cartItemList` (the line items, kept with the store their
references point into; `none` is `undefined`). -/
structure CartView where
  cartItemId : Option (List CartEntry)
  cartItemList : Option JoinState
  deriving DecidableEq, Repr

/-- What one call of `addToCart` does: the cart state it leaves, the
requests it sent, the notifications it raised, whether the `catch` block ran
`console.log(e)`, and whether the call ended in an uncaught `TypeError`. -/
structure CartEffects where
  view : CartView
  posts : List CartPost
  snackbars : List Snackbar
  logged : Bool
  thrown : Bool
  deriving DecidableEq, Repr

/-- The `try`/`catch` of `addToCart` (Products.js lines 313-328): one
`POST /cart`; when it resolves, `generateCartItemsFrom(res.data, products)`,
`setCartItemId(res.data)` and `setCartItemList(nCartItemList)`; when it
rejects, `console.log(e)` and nothing else. -/
def postCart (tok : String) (products : List Product) (productId : String) (qty : Int)
    (reply : PostReply) (view : CartView) : CartEffects :=
  match reply with
  | PostReply.resolved data =>
    { view := { cartItemId := data, cartItemList := generateCartItemsFrom data products },
      posts := [⟨tok, productId, qty⟩], snackbars := [], logged := false, thrown := false }
  | PostReply.rejected =>
    { view := view, posts := [⟨tok, productId, qty⟩], snackbars := [], logged := true,
      thrown := false }

/-- The function `addToCart` of Products.js.  The token is `none` for
`null`; `!token` also holds for the empty string.  `items` is `none` when
the caller passes `undefined`, on which `isItemInCart` reads `.length` and
throws.  `options` is `none` when omitted (the default
`{ preventDuplicate: false }`), otherwise the value of `preventDuplicate`.
`reply` is what the backend answers to the request, if one is sent. -/
def addToCart (token : Option String) (items : Option (List Product))
    (products : List Product) (productId : String) (qty : Int) (options : Option Bool)
    (reply : PostReply) (view : CartView) : CartEffects :=
  match token with
  | none =>
    { view := view, posts := [],
      snackbars := [⟨"Login to add item to the Cart", "Warning"⟩],
      logged := false, thrown := false }
  | some tok =>
    if tok = "" then
      { view := view, posts := [],
        snackbars := [⟨"Login to add item to the Cart", "Warning"⟩],
        logged := false, thrown := false }
    else if options.getD false then
      match items with
      | none => { view := view, posts := [], snackbars := [], logged := false, thrown := true }
      | some its =>
        if isItemInCart its productId then
          { view := view, posts := [],
            snackbars :=
              [⟨"Item already in cart. Use the cart sidebar to update quantity or remove item.",
                "warning"⟩],
            logged := false, thrown := false }
        else postCart tok products productId qty reply view
    else postCart tok products productId qty reply view

/-- A pending timer of the host: its handle, the time at which it fires and
the `event.target.value` its callback passes to `performSearch`. -/
structure Timer where
  handle : Nat
  due : Nat
  value : String
  deriving DecidableEq, Repr

/-- The host's timers around the search field: the clock, the next free
handle, the pending timers in the order they were set, and the calls of
`performSearch` made so far. -/
structure SearchState where
  now : Nat
  nextHandle : Nat
  timers : List Timer
  searches : List String
  deriving DecidableEq, Repr

/-- The host function `clearTimeout`: it cancels the pending timer with the
given handle, and does nothing for `undefined`. -/
def clearTimeout (handle : Option Nat) (s : SearchState) : SearchState :=
  match handle with
  | none => s
  | some h => { s with timers := s.timers.filter (fun t => t.handle != h) }

/-- The host function `setTimeout`: a new pending timer due `delay` after
now; its handle is returned. -/
def setTimeout (value : String) (delay : Nat) (s : SearchState) : Nat × SearchState :=
  (s.nextHandle,
    { s with nextHandle := s.nextHandle + 1,
             timers := s.timers ++ [⟨s.nextHandle, s.now + delay, value⟩] })

/-- The function `debounceSearch` of Products.js (lines 139-145):
`let newtimeout; clearTimeout(newtimeout); newtimeout = setTimeout(...)`.
The variable `newtimeout` is local to the call and `undefined` when
`clearTimeout` reads it. -/
def debounceSearch (value : String) (debounceTimeout : Nat) (s : SearchState) : SearchState :=
  let newtimeout : Option Nat := none
  let s1 := clearTimeout newtimeout s
  (setTimeout value debounceTimeout s1).2

/-- The clock moves to `t`: the timers due by then fire in the order they
were set, each calling `performSearch` with its value. -/
def advance (t : Nat) (s : SearchState) : SearchState :=
  { s with now := t,
           timers := s.timers.filter (fun k => decide (t < k.due)),
           searches := s.searches ++ ((s.timers.filter (fun k => decide (k.due ≤ t))).map
             (fun k => k.value)) }

/-- A run of search-input events: each is the time elapsed since the previous
event and the value typed; timers that come due in between fire first. -/
def typeAll (debounceTimeout : Nat) (events : List (Nat × String)) (s : SearchState) :
    SearchState :=
  events.foldl (fun st ev => debounceSearch ev.2 debounceTimeout (advance (st.now + ev.1) st)) s

/-- The form of the `Register` component. -/
structure FormData where
  username : String
  password : String
  confirmPassword : String
  deriving DecidableEq, Repr

/-- The function `validateInput` of Register.js (lines 59-81): the value it
returns and the notifications it raises.  Lengths are counted in characters. -/
def validateInput (data : FormData) : Bool × List Snackbar :=
  if data.username = "" then
    (false, [⟨"username is a required field", "warning"⟩])
  else if data.username.length < 6 then
    (false, [⟨"username must be more than 6 characters", "warning"⟩])
  else if data.password = "" then
    (false, [⟨"password is a required field", "warning"⟩])
  else if data.password.length < 6 then
    (false, [⟨"passworn must br more than 6 characters", "warning"⟩])
  else if data.password ≠ data.confirmPassword then
    (true, [⟨"passwords do not match", "warning"⟩])
  else (true, [])

/-- A request `POST /auth/register` with body `{ username, password }`. -/
structure RegisterPost where
  username : String
  password : String
  deriving DecidableEq, Repr

/-- What `await axios.post(...)` of `register` gives: it resolves, or it
rejects, with the message of the body when the status is 400. -/
inductive RegisterReply where
  | resolved
  | rejected (message400 : Option String)
  deriving DecidableEq, Repr

/-- What one call of `register` does: the requests it sent, the
notifications it raised and the route it pushed.  The `loading` flag and the
reset of the form are not tracked. -/
structure RegisterEffects where
  posts : List RegisterPost
  snackbars : List Snackbar
  pushed : Option String
  deriving DecidableEq, Repr

/-- The function `register` of Register.js (lines 27-55). -/
def register (formData : FormData) (reply : RegisterReply) : RegisterEffects :=
  let v := validateInput formData
  if !v.1 then
    { posts := [], snackbars := v.2, pushed := none }
  else
    match reply with
    | RegisterReply.resolved =>
      { posts := [⟨formData.username, formData.password⟩],
        snackbars := v.2 ++ [⟨"Registered Successfully", "success"⟩],
        pushed := some "/login" }
    | RegisterReply.rejected (some m) =>
      { posts := [⟨formData.username, formData.password⟩],
        snackbars := v.2 ++ [⟨m, "error"⟩], pushed := none }
    | RegisterReply.rejected none =>
      { posts := [⟨formData.username, formData.password⟩],
        snackbars := v.2 ++
          [⟨"Something went wrong. Check that the backend is running, reachable and returns valid JSON.",
            "error"⟩],
        pushed := none }

/-! ## Closed form of the join -/

theorem joinTest_writeQty (e f : CartEntry) (p : Product) :
    joinTest e (writeQty f p) = joinTest e p := by
  unfold writeQty
  split <;> simp [joinTest]

/-- The state of the inner loop after its first `k` iterations. -/
theorem joinInner_upto (e : CartEntry) (pd : List Product) (acc : List Nat) (k : Nat) :
    ((List.range k).foldl (joinBody e) ⟨pd, acc⟩).productsData.length = pd.length ∧
    (∀ i, ((List.range k).foldl (joinBody e) ⟨pd, acc⟩).productsData[i]? =
      if i < k then (pd[i]?).map (writeQty e) else pd[i]?) ∧
    ((List.range k).foldl (joinBody e) ⟨pd, acc⟩).cartItem =
      acc ++ (List.range k).filter (fun j => (pd[j]?).any (joinTest e)) := by
  induction k with
  | zero => simp
  | succ k ih =>
    obtain ⟨hlen, hget, hacc⟩ := ih
    rw [List.range_succ, List.foldl_append]
    simp only [List.foldl_cons, List.foldl_nil]
    generalize (List.range k).foldl (joinBody e) ⟨pd, acc⟩ = s at hlen hget hacc
    have hk : s.productsData[k]? = pd[k]? := by simpa using hget k
    unfold joinBody
    rw [hk]
    cases hp : pd[k]? with
    | none =>
      refine ⟨hlen, ?_, ?_⟩
      · intro i
        rw [hget i]
        by_cases h1 : i < k
        · simp [h1, Nat.lt_succ_of_lt h1]
        · by_cases h2 : i = k
          · subst h2; simp [hp]
          · have h3 : ¬ i < k + 1 := by omega
            simp [h1, h3]
      · simp [hacc, List.filter_append, hp]
    | some p =>
      by_cases ht : joinTest e p = true
      · simp only [ht, if_true]
        refine ⟨by simp [hlen], ?_, ?_⟩
        · intro i
          rw [List.getElem?_set]
          by_cases h2 : k = i
          · subst h2
            have hlt : k < s.productsData.length := by
              rw [hlen]
              exact (List.getElem?_eq_some_iff.mp hp).1
            simp [hlt, hp, writeQty, ht]
          · rw [if_neg h2, hget i]
            by_cases h1 : i < k
            · simp [h1, Nat.lt_succ_of_lt h1]
            · have h3 : ¬ i < k + 1 := by omega
              simp [h1, h3]
        · simp [hacc, List.filter_append, hp, ht]
      · have ht : joinTest e p = false := by simpa using ht
        simp only [ht, Bool.false_eq_true, if_false]
        refine ⟨hlen, ?_, ?_⟩
        · intro i
          rw [hget i]
          by_cases h1 : i < k
          · simp [h1, Nat.lt_succ_of_lt h1]
          · by_cases h2 : i = k
            · subst h2; simp [hp, writeQty, ht]
            · have h3 : ¬ i < k + 1 := by omega
              simp [h1, h3]
        · simp [hacc, List.filter_append, hp, ht]

/-- The inner loop in closed form: every catalog object passes through
`writeQty`, and the indices where the test holds are appended in order. -/
theorem joinInner_eq (e : CartEntry) (pd : List Product) (acc : List Nat) :
    joinInner ⟨pd, acc⟩ e = ⟨pd.map (writeQty e), acc ++ hits e pd⟩ := by
  obtain ⟨hlen, hget, hacc⟩ := joinInner_upto e pd acc pd.length
  unfold joinInner
  simp only
  generalize (List.range pd.length).foldl (joinBody e) ⟨pd, acc⟩ = s at hlen hget hacc
  cases s with
  | mk spd sacc =>
    simp only at hlen hget hacc
    congr 1
    · apply List.ext_getElem?
      intro i
      rw [hget i, List.getElem?_map]
      by_cases h : i < pd.length
      · simp [h]
      · have : pd[i]? = none := List.getElem?_eq_none (by omega)
        simp [h, this]

theorem hits_map_writeQty (e f : CartEntry) (pd : List Product) :
    hits e (pd.map (writeQty f)) = hits e pd := by
  unfold hits
  rw [List.length_map]
  apply List.filter_congr
  intro j _
  rw [List.getElem?_map]
  cases pd[j]? with
  | none => rfl
  | some p => simp [joinTest_writeQty]

/-- The two loops in closed form. -/
theorem joinOuter_eq (cart : List CartEntry) (pd : List Product) (acc : List Nat) :
    joinOuter cart ⟨pd, acc⟩ =
      ⟨pd.map (writeAll cart), acc ++ cart.flatMap (fun e => hits e pd)⟩ := by
  induction cart generalizing pd acc with
  | nil =>
    have hid : writeAll [] = id := rfl
    simp [joinOuter, hid]
  | cons e cart ih =>
    have hstep : joinOuter (e :: cart) ⟨pd, acc⟩ = joinOuter cart (joinInner ⟨pd, acc⟩ e) := rfl
    rw [hstep, joinInner_eq, ih]
    simp [writeAll, hits_map_writeQty, List.append_assoc]

theorem generateCartItemsFrom_eq (cart : List CartEntry) (pd : List Product) :
    generateCartItemsFrom (some cart) pd =
      some ⟨pd.map (writeAll cart), cart.flatMap (fun e => hits e pd)⟩ := by
  simp [generateCartItemsFrom, joinOuter_eq]

/-- Reading the objects at the indices where a test holds gives the objects
that pass the test, in catalog order. -/
theorem filterMap_hits {β : Type} (P : Product → Bool) (U : Product → β) (pd : List Product) :
    ((List.range pd.length).filter (fun j => (pd[j]?).any P)).filterMap
      (fun j => (pd[j]?).map U) = (pd.filter P).map U := by
  induction pd using List.reverseRecOn with
  | nil => simp
  | append_singleton l a ih =>
    rw [List.length_append, List.length_singleton, List.range_succ, List.filter_append,
      List.filterMap_append, List.filter_append, List.map_append]
    congr 1
    · rw [← ih]
      have h1 : (List.range l.length).filter (fun j => ((l ++ [a])[j]?).any P) =
          (List.range l.length).filter (fun j => (l[j]?).any P) := by
        apply List.filter_congr
        intro j hj
        rw [List.getElem?_append_left (List.mem_range.mp hj)]
      rw [h1]
      apply List.filterMap_congr
      intro j hj
      have hj2 := List.mem_range.mp (List.mem_filter.mp hj).1
      rw [List.getElem?_append_left hj2]
    · by_cases hP : P a = true
      · simp [hP]
      · simp [hP]

theorem joinTest_writeAll (e : CartEntry) (cart : List CartEntry) (p : Product) :
    joinTest e (writeAll cart p) = joinTest e p := by
  induction cart generalizing p with
  | nil => rfl
  | cons f cart ih =>
    show joinTest e (writeAll cart (writeQty f p)) = _
    rw [ih, joinTest_writeQty]

/-- The line items read from the result of the join, in closed form. -/
theorem lineItems_eq (cart : List CartEntry) (pd : List Product) :
    lineItems ⟨pd.map (writeAll cart), cart.flatMap (fun e => hits e pd)⟩ =
      cart.flatMap (fun e => (pd.filter (joinTest e)).map (writeAll cart)) := by
  unfold lineItems
  simp only [List.filterMap_flatMap, List.getElem?_map]
  congr 1
  funext e
  exact filterMap_hits (joinTest e) (writeAll cart) pd

theorem writeQty_id (e : CartEntry) (p : Product) : (writeQty e p)._id = p._id := by
  unfold writeQty
  split <;> rfl

theorem writeAll_id (cart : List CartEntry) (p : Product) : (writeAll cart p)._id = p._id := by
  induction cart generalizing p with
  | nil => rfl
  | cons f cart ih =>
    show (writeAll cart (writeQty f p))._id = _
    rw [ih, writeQty_id]

theorem joinTest_iff (e : CartEntry) (p : Product) :
    joinTest e p = true ↔ e.qty > 0 ∧ (e.productId = p._id ∨ e._id = some p._id) := by
  simp [joinTest]

theorem writeQty_idle (e : CartEntry) (p : Product) (h : joinTest e p = false) :
    writeQty e p = p := by
  simp [writeQty, h]

theorem hits_idle (e : CartEntry) (pd : List Product) (h : ∀ p ∈ pd, joinTest e p = false) :
    hits e pd = [] := by
  unfold hits
  rw [List.filter_eq_nil_iff]
  intro j _
  cases hp : pd[j]? with
  | none => simp
  | some p => simp [h p (List.getElem?_mem hp)]

theorem writeAll_filter (keep : CartEntry → Bool) (cart : List CartEntry) (p : Product)
    (h : ∀ e ∈ cart, keep e = false → joinTest e p = false) :
    writeAll (cart.filter keep) p = writeAll cart p := by
  induction cart generalizing p with
  | nil => rfl
  | cons f cart ih =>
    have hrest : ∀ q, joinTest f q = joinTest f p → (∀ e ∈ cart, keep e = false → joinTest e q = false) →
        writeAll (cart.filter keep) q = writeAll cart q := fun q _ hq => ih q hq
    have htail : ∀ e ∈ cart, keep e = false → joinTest e (writeQty f p) = false := by
      intro e he hk
      rw [joinTest_writeQty]
      exact h e (List.mem_cons_of_mem _ he) hk
    by_cases hk : keep f = true
    · rw [List.filter_cons_of_pos hk]
      show writeAll (cart.filter keep) (writeQty f p) = writeAll cart (writeQty f p)
      exact ih _ htail
    · have hk2 : keep f = false := by simpa using hk
      rw [List.filter_cons_of_neg hk]
      show writeAll (cart.filter keep) p = writeAll cart (writeQty f p)
      rw [writeQty_idle f p (h f (List.mem_cons_self _ _) hk2)]
      exact ih p (fun e he hke => h e (List.mem_cons_of_mem _ he) hke)

theorem flatMap_hits_filter (keep : CartEntry → Bool) (cart : List CartEntry)
    (pd : List Product)
    (h : ∀ e ∈ cart, keep e = false → ∀ p ∈ pd, joinTest e p = false) :
    (cart.filter keep).flatMap (fun e => hits e pd) = cart.flatMap (fun e => hits e pd) := by
  induction cart with
  | nil => rfl
  | cons f cart ih =>
    have ih2 := ih (fun e he hk => h e (List.mem_cons_of_mem _ he) hk)
    by_cases hk : keep f = true
    · rw [List.filter_cons_of_pos hk, List.flatMap_cons, List.flatMap_cons, ih2]
    · have hk2 : keep f = false := by simpa using hk
      rw [List.filter_cons_of_neg hk, List.flatMap_cons, ih2,
        hits_idle f pd (h f (List.mem_cons_self _ _) hk2), List.nil_append]

/-- Cart entries whose test holds at no catalog object can be removed from
the cart without changing the result of the join or the store it leaves. -/
theorem generateCartItemsFrom_filter (keep : CartEntry → Bool) (cart : List CartEntry)
    (pd : List Product)
    (h : ∀ e ∈ cart, keep e = false → ∀ p ∈ pd, joinTest e p = false) :
    generateCartItemsFrom (some (cart.filter keep)) pd = generateCartItemsFrom (some cart) pd := by
  rw [generateCartItemsFrom_eq, generateCartItemsFrom_eq]
  congr 2
  · apply List.map_congr_left
    intro p hp
    exact writeAll_filter keep cart p (fun e he hk => h e he hk p hp)
  · exact flatMap_hits_filter keep cart pd h

theorem mem_lineItems (cart : List CartEntry) (pd : List Product) (s : JoinState)
    (hs : generateCartItemsFrom (some cart) pd = some s) (it : Product) :
    it ∈ lineItems s ↔ ∃ e ∈ cart, ∃ q ∈ pd, joinTest e q = true ∧ it = writeAll cart q := by
  rw [generateCartItemsFrom_eq] at hs
  cases hs
  rw [lineItems_eq]
  simp only [List.mem_flatMap, List.mem_map, List.mem_filter]
  constructor
  · rintro ⟨e, he, q, ⟨hq, ht⟩, rfl⟩
    exact ⟨e, he, q, hq, ht, rfl⟩
  · rintro ⟨e, he, q, hq, ht, rfl⟩
    exact ⟨e, he, q, ⟨hq, ht⟩, rfl⟩

theorem eraseQty_writeQty (e : CartEntry) (p : Product) :
    eraseQty (writeQty e p) = eraseQty p := by
  unfold writeQty
  split <;> rfl

theorem eraseQty_writeAll (cart : List CartEntry) (p : Product) :
    eraseQty (writeAll cart p) = eraseQty p := by
  induction cart generalizing p with
  | nil => rfl
  | cons f cart ih =>
    show eraseQty (writeAll cart (writeQty f p)) = _
    rw [ih, eraseQty_writeQty]

theorem writeAll_idle (cart : List CartEntry) (p : Product)
    (h : ∀ e ∈ cart, joinTest e p = false) : writeAll cart p = p := by
  induction cart with
  | nil => rfl
  | cons f cart ih =>
    show writeAll cart (writeQty f p) = p
    rw [writeQty_idle f p (h f (List.mem_cons_self _ _))]
    exact ih (fun e he => h e (List.mem_cons_of_mem _ he))

theorem roundDouble_exact (z : Int) (h : z.natAbs ≤ 9007199254740992) :
    roundDouble z = JSNumber.finite z := by
  simp [roundDouble, h]

/-- While every product and every partial sum stays within `2^53`, the loop of
`getTotalCartValue` computes the exact sum. -/
theorem foldl_totalStep (items : List Product) (t : Int)
    (h : ∀ it ∈ items, it.qty.isSome = true)
    (hprod : ∀ it ∈ items, (lineValue it).natAbs ≤ 9007199254740992)
    (hsum : ∀ k, k ≤ items.length →
      (t + ((items.take k).map lineValue).sum).natAbs ≤ 9007199254740992) :
    items.foldl totalStep (JSNumber.finite t) =
      JSNumber.finite (t + (items.map lineValue).sum) := by
  induction items generalizing t with
  | nil => simp
  | cons it items ih =>
    have hq := h it (List.mem_cons_self _ _)
    obtain ⟨q, hq⟩ := Option.isSome_iff_exists.mp hq
    have hv : lineValue it = it.cost * q := by simp [lineValue, hq]
    have hp := hprod it (List.mem_cons_self _ _)
    have h1 := hsum 1 (by simp)
    simp only [List.take_succ_cons, List.take_zero, List.map_cons, List.map_nil,
      List.sum_cons, List.sum_nil, add_zero] at h1
    have hstep : totalStep (JSNumber.finite t) it = JSNumber.finite (t + lineValue it) := by
      rw [hv] at hp h1 ⊢
      simp only [totalStep, hq, jsMul, roundDouble_exact _ hp, jsAdd, roundDouble_exact _ h1]
    rw [List.foldl_cons, hstep, ih (t + lineValue it)
      (fun x hx => h x (List.mem_cons_of_mem _ hx))
      (fun x hx => hprod x (List.mem_cons_of_mem _ hx))]
    · simp [add_assoc]
    · intro k hk
      have := hsum (k + 1) (by simpa using hk)
      simpa [List.take_succ_cons, add_assoc] using this

theorem flatMap_range_getElem {α β : Type} (F : Option α → List β) (l : List α) :
    (List.range l.length).flatMap (fun i => F (l[i]?)) = l.flatMap (fun a => F (some a)) := by
  induction l using List.reverseRecOn with
  | nil => simp
  | append_singleton l a ih =>
    rw [List.length_append, List.length_singleton, List.range_succ, List.flatMap_append,
      List.flatMap_append, ← ih]
    congr 1
    · apply List.flatMap_congr
      intro i hi
      rw [List.getElem?_append_left (List.mem_range.mp hi)]
    · simp

theorem matchingPairs_snd (cart : List CartEntry) (pd : List Product) :
    (matchingPairs cart pd).map Prod.snd = cart.flatMap (fun e => hits e pd) := by
  unfold matchingPairs
  rw [List.map_flatMap]
  have h := flatMap_range_getElem
    (fun oe => (List.range pd.length).filter (fun j =>
      match oe, pd[j]? with
      | some e, some p => joinTest e p
      | _, _ => false)) cart
  have hl : ∀ (i : Nat) (L : List Nat), (L.map (fun j => (i, j))).map Prod.snd = L := by
    intro i L
    simp [List.map_map, Function.comp_def]
  simp only [hl]
  rw [h]
  apply List.flatMap_congr
  intro e _
  unfold hits
  apply List.filter_congr
  intro j _
  cases pd[j]? <;> rfl

theorem length_filterMap_of_isSome {α β : Type} (f : α → Option β) (l : List α)
    (h : ∀ x ∈ l, (f x).isSome = true) : (l.filterMap f).length = l.length := by
  induction l with
  | nil => rfl
  | cons a l ih =>
    obtain ⟨b, hb⟩ := Option.isSome_iff_exists.mp (h a (List.mem_cons_self _ _))
    rw [List.filterMap_cons_some hb, List.length_cons, List.length_cons,
      ih (fun x hx => h x (List.mem_cons_of_mem _ hx))]

theorem mem_hits (e : CartEntry) (pd : List Product) (j : Nat) :
    j ∈ hits e pd ↔ ∃ p, pd[j]? = some p ∧ joinTest e p = true := by
  unfold hits
  rw [List.mem_filter, List.mem_range]
  constructor
  · rintro ⟨hj, ht⟩
    refine ⟨pd[j], List.getElem?_eq_getElem hj, ?_⟩
    simpa [List.getElem?_eq_getElem hj] using ht
  · rintro ⟨p, hp, ht⟩
    exact ⟨(List.getElem?_eq_some_iff.mp hp).1, by simp [hp, ht]⟩

theorem filter_id_of_nodup (catalog : List Product) (id : String)
    (hcat : (catalog.map (fun p => p._id)).Nodup) :
    catalog.filter (fun p => decide (p._id = id)) =
      (catalog.find? (fun p => decide (p._id = id))).toList := by
  induction catalog with
  | nil => rfl
  | cons q rest ih =>
    rw [List.map_cons, List.nodup_cons] at hcat
    by_cases hq : q._id = id
    · have hnone : rest.filter (fun p => decide (p._id = id)) = [] := by
        rw [List.filter_eq_nil_iff]
        intro p hp
        have hne : p._id ≠ id := by
          intro h
          apply hcat.1
          rw [hq, ← h]
          exact List.mem_map_of_mem _ hp
        simpa using hne
      simp [List.filter_cons, List.find?_cons, hq, hnone]
    · simp [List.filter_cons, List.find?_cons, hq, ih hcat.2]

theorem filter_joinTest_of_nodup (catalog : List Product) (e : CartEntry)
    (hcat : (catalog.map (fun p => p._id)).Nodup) (he : e._id = none) :
    catalog.filter (joinTest e) =
      if e.qty > 0 then (catalog.find? (fun p => decide (p._id = e.productId))).toList
      else [] := by
  by_cases hpos : e.qty > 0
  · rw [if_pos hpos, ← filter_id_of_nodup catalog e.productId hcat]
    apply List.filter_congr
    intro p _
    simp [joinTest, he, hpos, eq_comm]
  · rw [if_neg hpos, List.filter_eq_nil_iff]
    intro p _
    simp [joinTest, hpos]

theorem writeAll_cost (cart : List CartEntry) (p : Product) : (writeAll cart p).cost = p.cost := by
  have h : (eraseQty (writeAll cart p)).cost = (eraseQty p).cost := by rw [eraseQty_writeAll]
  exact h

theorem writeAll_append_singleton (cart : List CartEntry) (f : CartEntry) (p : Product) :
    writeAll (cart ++ [f]) p = writeQty f (writeAll cart p) := by
  simp [writeAll, List.foldl_append]

/-- When every entry that passes the test at `q` has the same `qty`, that is
the `qty` the join leaves on `q`. -/
theorem writeAll_qty (cart : List CartEntry) (q : Product) (n : Int)
    (hex : ∃ e ∈ cart, joinTest e q = true)
    (hall : ∀ e ∈ cart, joinTest e q = true → e.qty = n) :
    (writeAll cart q).qty = some n := by
  induction cart using List.reverseRecOn with
  | nil => simp at hex
  | append_singleton init f ih =>
    rw [writeAll_append_singleton]
    by_cases hf : joinTest f q = true
    · have hf2 : joinTest f (writeAll init q) = true := by rw [joinTest_writeAll]; exact hf
      have hn := hall f (by simp) hf
      simp [writeQty, hf2, hn]
    · have hf2 : joinTest f (writeAll init q) = false := by
        rw [joinTest_writeAll]; simpa using hf
      rw [writeQty_idle _ _ hf2]
      apply ih
      · obtain ⟨e, he, ht⟩ := hex
        rcases List.mem_append.mp he with h | h
        · exact ⟨e, h, ht⟩
        · have : e = f := by simpa using h
          subst this
          exact absurd ht hf
      · intro e he ht
        exact hall e (List.mem_append_left _ he) ht

/-- With pairwise distinct catalog ids, pairwise distinct cart product ids and
no secondary `_id`, a cart entry either passes the test at no catalog product
or at exactly one, on which the join leaves the entry's `qty`. -/
theorem entry_cases (cart : List CartEntry) (catalog : List Product)
    (hcat : (catalog.map (fun p => p._id)).Nodup)
    (hcart : (cart.map (fun e => e.productId)).Nodup)
    (hsec : ∀ e ∈ cart, e._id = none) (e : CartEntry) (he : e ∈ cart) :
    (catalog.filter (joinTest e) = [] ∧
      (decide (e.qty > 0) && catalog.any (fun p => decide (p._id = e.productId))) = false) ∨
    (∃ q, catalog.filter (joinTest e) = [q] ∧
      (decide (e.qty > 0) && catalog.any (fun p => decide (p._id = e.productId))) = true ∧
      costOf catalog e.productId = q.cost ∧ (writeAll cart q).qty = some e.qty) := by
  have hf := filter_joinTest_of_nodup catalog e hcat (hsec e he)
  by_cases hpos : e.qty > 0
  · rw [if_pos hpos] at hf
    cases hfind : catalog.find? (fun p => decide (p._id = e.productId)) with
    | none =>
      left
      rw [hfind] at hf
      refine ⟨hf, ?_⟩
      have hn := List.find?_eq_none.mp hfind
      have hany : catalog.any (fun p => decide (p._id = e.productId)) = false := by
        rw [List.any_eq_false]
        intro p hp
        exact hn p hp
      simp [hany]
    | some q =>
      right
      rw [hfind] at hf
      have hq : q ∈ catalog := List.mem_of_find?_eq_some hfind
      have hid : q._id = e.productId := by simpa using List.find?_some hfind
      refine ⟨q, hf, ?_, ?_, ?_⟩
      · have hany : catalog.any (fun p => decide (p._id = e.productId)) = true := by
          rw [List.any_eq_true]
          exact ⟨q, hq, by simpa using hid⟩
        simp [hany, hpos]
      · simp [costOf, hfind]
      · apply writeAll_qty
        · exact ⟨e, he, (joinTest_iff e q).mpr ⟨hpos, Or.inl hid.symm⟩⟩
        · intro e2 he2 ht
          have h2 := (joinTest_iff e2 q).mp ht
          have hpid : e2.productId = q._id := by
            rcases h2.2 with h | h
            · exact h
            · rw [hsec e2 he2] at h
              cases h
          have : e2 = e := List.inj_on_of_nodup_map hcart he2 he (by rw [hpid, hid])
          rw [this]
  · left
    rw [if_neg hpos] at hf
    refine ⟨hf, ?_⟩
    simp [hpos]

theorem lineItems_priced (cart : List CartEntry) (catalog : List Product)
    (hcat : (catalog.map (fun p => p._id)).Nodup)
    (hcart : (cart.map (fun e => e.productId)).Nodup)
    (hsec : ∀ e ∈ cart, e._id = none) (sub : List CartEntry) (hsub : ∀ e ∈ sub, e ∈ cart) :
    (∀ it ∈ sub.flatMap (fun e => (catalog.filter (joinTest e)).map (writeAll cart)),
      it.qty.isSome = true) ∧
    (sub.flatMap (fun e => (catalog.filter (joinTest e)).map (writeAll cart))).map lineValue =
      (pricedEntries sub catalog).map (fun e => e.qty * costOf catalog e.productId) := by
  induction sub with
  | nil => simp [pricedEntries]
  | cons e sub ih =>
    obtain ⟨ih1, ih2⟩ := ih (fun x hx => hsub x (List.mem_cons_of_mem _ hx))
    rcases entry_cases cart catalog hcat hcart hsec e (hsub e (List.mem_cons_self _ _)) with
      ⟨hnil, hc⟩ | ⟨q, hone, hc, hcost, hqty⟩
    · have hp : pricedEntries (e :: sub) catalog = pricedEntries sub catalog := by
        unfold pricedEntries
        rw [List.filter_cons, hc]
        simp
      rw [List.flatMap_cons, hnil, hp]
      exact ⟨ih1, ih2⟩
    · have hp : pricedEntries (e :: sub) catalog = e :: pricedEntries sub catalog := by
        unfold pricedEntries
        rw [List.filter_cons, hc]
        simp
      rw [List.flatMap_cons, hone, hp]
      refine ⟨?_, ?_⟩
      · intro it hit
        rcases List.mem_append.mp hit with h | h
        · have : it = writeAll cart q := by simpa using h
          rw [this, hqty]
          rfl
        · exact ih1 it h
      · have hv : lineValue (writeAll cart q) = e.qty * costOf catalog e.productId := by
          simp only [lineValue, hqty, hcost, writeAll_cost, Option.getD_some]
          ring
        simp only [List.map_cons, List.map_nil, List.map_append, List.singleton_append, ih2, hv]

theorem setQty_congr (a b : Product) (q : Option Int) (h : eraseQty a = eraseQty b) :
    { a with qty := q } = { b with qty := q } := by
  cases a
  cases b
  simp only [eraseQty, Product.mk.injEq] at h
  simp [h]

/-- The writes of a run of the join on one catalog object, in closed form:
the object is untouched when no entry passes the test at it, and otherwise
carries the `qty` of the last entry, in cart order, that passes. -/
theorem writeAll_eq_last (cart : List CartEntry) (p : Product) :
    writeAll cart p =
      match (cart.filter (fun e => joinTest e p)).getLast? with
      | none => p
      | some e => { p with qty := some e.qty } := by
  induction cart using List.reverseRecOn with
  | nil => rfl
  | append_singleton init f ih =>
    rw [writeAll_append_singleton, List.filter_append]
    by_cases hf : joinTest f p = true
    · have hf2 : joinTest f (writeAll init p) = true := by rw [joinTest_writeAll]; exact hf
      have hl : (List.filter (fun e => joinTest e p) init ++
          List.filter (fun e => joinTest e p) [f]).getLast? = some f := by
        simp [List.filter_cons, hf]
      rw [hl]
      simp only [writeQty, hf2, if_true]
      exact setQty_congr _ _ _ (eraseQty_writeAll init p)
    · have hf2 : joinTest f (writeAll init p) = false := by
        rw [joinTest_writeAll]; simpa using hf
      have hl : List.filter (fun e => joinTest e p) [f] = [] := by
        simp [List.filter_cons, hf]
      rw [hl, List.append_nil, writeQty_idle _ _ hf2]
      exact ih

theorem isItemInCart_true_iff (items : List Product) (p : String) :
    isItemInCart items p = true ↔ ∃ it ∈ items, it._id = p := by
  induction items with
  | nil => simp [isItemInCart]
  | cons it rest ih =>
    by_cases h : it._id = p
    · simp [isItemInCart, h]
    · simp [isItemInCart, h, ih]

/-- The identities found among the line items of a join are those of the
catalog products at which some cart entry passes the test. -/
theorem exists_lineItem_id_iff (cart : List CartEntry) (pd : List Product) (s : JoinState)
    (hs : generateCartItemsFrom (some cart) pd = some s) (p : String) :
    (∃ it ∈ lineItems s, it._id = p) ↔
      (∃ q ∈ pd, q._id = p) ∧ ∃ e ∈ cart, e.qty > 0 ∧ (e.productId = p ∨ e._id = some p) := by
  constructor
  · rintro ⟨it, hit, hid⟩
    obtain ⟨e, he, q, hq, ht, rfl⟩ := (mem_lineItems cart pd s hs it).mp hit
    rw [writeAll_id] at hid
    subst hid
    exact ⟨⟨q, hq, rfl⟩, e, he, (joinTest_iff e q).mp ht⟩
  · rintro ⟨⟨q, hq, rfl⟩, e, he, hpos, hm⟩
    exact ⟨writeAll cart q,
      (mem_lineItems cart pd s hs _).mpr ⟨e, he, q, hq, (joinTest_iff e q).mpr ⟨hpos, hm⟩, rfl⟩,
      writeAll_id cart q⟩

/-! ## Claims -/

/-- C1: for every defined cart whose entries are of the documented type
`{ productId, qty }` (no `_id` field), every catalog and every product identity
`p`, the result of `generateCartItemsFrom` contains a line item whose `_id` is
`p` if and only if the cart has an entry with `productId = p` and `qty > 0` and
the catalog has a product with `_id = p`; and the entries whose `productId` is
the `_id` of no catalog product produce nothing: removing them from the cart
changes neither the result nor the store. -/
theorem C1_line_item_iff_entry_and_product (cart : List CartEntry) (catalog : List Product)
    (p : String) (hdoc : ∀ e ∈ cart, e._id = none) :
    ∃ s, generateCartItemsFrom (some cart) catalog = some s ∧
      ((∃ it ∈ lineItems s, it._id = p) ↔
        ((∃ e ∈ cart, e.productId = p ∧ e.qty > 0) ∧ ∃ q ∈ catalog, q._id = p)) ∧
      generateCartItemsFrom
        (some (cart.filter (fun e => catalog.any (fun q => decide (q._id = e.productId)))))
        catalog = some s := by
  refine ⟨_, generateCartItemsFrom_eq cart catalog, ?_, ?_⟩
  · rw [exists_lineItem_id_iff cart catalog _ (generateCartItemsFrom_eq cart catalog) p]
    constructor
    · rintro ⟨hq, e, he, hpos, hm⟩
      refine ⟨⟨e, he, ?_, hpos⟩, hq⟩
      rcases hm with h | h
      · exact h
      · rw [hdoc e he] at h
        cases h
    · rintro ⟨⟨e, he, hid, hpos⟩, hq⟩
      exact ⟨hq, e, he, hpos, Or.inl hid⟩
  · rw [← generateCartItemsFrom_eq cart catalog]
    apply generateCartItemsFrom_filter
    intro e he hk q hq
    have hne : ¬ q._id = e.productId := by
      have := List.any_eq_false.mp hk q hq
      simpa using this
    have hne2 : ¬ e.productId = q._id := fun h => hne h.symm
    simp [joinTest, hdoc e he, hne2]

/-- C1 at the cart `[{p1, 2}, {p9, 1}]` and the catalog `[p1, p2]`: there is a
line item for `p1`, and the entry for `p9`, which the catalog lacks, produces
nothing. -/
theorem C1_line_item_iff_entry_and_product_witness :
    (∀ e ∈ [(⟨"p1", none, 2⟩ : CartEntry), ⟨"p9", none, 1⟩], e._id = none) ∧
    ∃ s, generateCartItemsFrom (some [⟨"p1", none, 2⟩, ⟨"p9", none, 1⟩])
        [mkProduct "p1" 100, mkProduct "p2" 50] = some s ∧
      (∃ it ∈ lineItems s, it._id = "p1") ∧
      ¬ (∃ it ∈ lineItems s, it._id = "p9") := by
  have hdoc : ∀ e ∈ [(⟨"p1", none, 2⟩ : CartEntry), ⟨"p9", none, 1⟩], e._id = none := by decide
  obtain ⟨s, hs, h1, _⟩ := C1_line_item_iff_entry_and_product
    [⟨"p1", none, 2⟩, ⟨"p9", none, 1⟩] [mkProduct "p1" 100, mkProduct "p2" 50] "p1" hdoc
  obtain ⟨s9, hs9, h9, _⟩ := C1_line_item_iff_entry_and_product
    [⟨"p1", none, 2⟩, ⟨"p9", none, 1⟩] [mkProduct "p1" 100, mkProduct "p2" 50] "p9" hdoc
  have hss : s9 = s := by
    rw [hs] at hs9
    exact (Option.some.inj hs9).symm
  subst hss
  refine ⟨hdoc, s9, hs, h1.mpr ⟨⟨⟨"p1", none, 2⟩, by decide, rfl, by decide⟩,
    ⟨mkProduct "p1" 100, by decide, rfl⟩⟩, ?_⟩
  intro h
  obtain ⟨_, q, hq, hid⟩ := h9.mp h
  revert q
  decide

/-- C2 (the code at the failing input): with the cart
`[{productId: "p1", qty: 2}, {productId: "p1", qty: 3}]` and the catalog `[p1]`
the result holds the same catalog object twice, and both positions read
`qty = 3`: the line item emitted by the first entry does not carry that
entry's `qty = 2`. -/
theorem C2_aliased_line_items :
    ∃ s, generateCartItemsFrom (some [⟨"p1", none, 2⟩, ⟨"p1", none, 3⟩])
        [mkProduct "p1" 100] = some s ∧
      s.cartItem = [0, 0] ∧
      (lineItems s).map (fun it => it.qty) = [some 3, some 3] ∧
      ((lineItems s)[0]?).bind (fun it => it.qty) ≠ some 2 := by
  refine ⟨_, rfl, ?_⟩
  decide

/-- C3: for every defined cart and every catalog, the array returned by
`generateCartItemsFrom` holds exactly one reference per index pair `(i, j)`
with `cartData[i].qty > 0` and `cartData[i]` matching `productsData[j]`, namely
the catalog object at `j`, in increasing `i` and for equal `i` increasing `j`;
nothing is dropped or merged, so the number of line items is the number of
matching pairs, and the line items are, `qty` aside, the catalog products at
those indices in that order. -/
theorem C3_one_item_per_pair_in_order (cart : List CartEntry) (catalog : List Product) :
    ∃ s, generateCartItemsFrom (some cart) catalog = some s ∧
      s.cartItem = (matchingPairs cart catalog).map Prod.snd ∧
      (lineItems s).length = (matchingPairs cart catalog).length ∧
      (lineItems s).map eraseQty =
        (matchingPairs cart catalog).filterMap (fun ij => (catalog[ij.2]?).map eraseQty) ∧
      (∀ (i j : Nat), (i, j) ∈ matchingPairs cart catalog ↔
        ∃ e p, cart[i]? = some e ∧ catalog[j]? = some p ∧
          e.qty > 0 ∧ (e.productId = p._id ∨ e._id = some p._id)) ∧
      (matchingPairs cart catalog).Pairwise
        (fun a b => a.1 < b.1 ∨ (a.1 = b.1 ∧ a.2 < b.2)) := by
  refine ⟨_, generateCartItemsFrom_eq cart catalog, (matchingPairs_snd cart catalog).symm,
    ?_, ?_, ?_, ?_⟩
  · have hlen : (lineItems ⟨catalog.map (writeAll cart),
        cart.flatMap (fun e => hits e catalog)⟩).length =
        (cart.flatMap (fun e => hits e catalog)).length := by
      unfold lineItems
      apply length_filterMap_of_isSome
      intro j hj
      obtain ⟨e, _, hje⟩ := List.mem_flatMap.mp hj
      obtain ⟨p, hp, _⟩ := (mem_hits e catalog j).mp hje
      simp [List.getElem?_map, hp]
    rw [hlen, ← matchingPairs_snd, List.length_map]
  · unfold lineItems
    simp only
    rw [← matchingPairs_snd, List.map_filterMap, List.filterMap_map]
    apply List.filterMap_congr
    intro ij _
    simp only [Function.comp_apply, List.getElem?_map, Option.map_map]
    congr 1
    funext p
    exact eraseQty_writeAll cart p
  · intro i j
    unfold matchingPairs
    simp only [List.mem_flatMap, List.mem_map, List.mem_filter, List.mem_range, Prod.mk.injEq]
    constructor
    · rintro ⟨i', hi', j', ⟨hj', ht⟩, rfl, rfl⟩
      refine ⟨cart[i'], catalog[j'], List.getElem?_eq_getElem hi',
        List.getElem?_eq_getElem hj', ?_⟩
      rw [List.getElem?_eq_getElem hi', List.getElem?_eq_getElem hj'] at ht
      exact (joinTest_iff _ _).mp ht
    · rintro ⟨e, p, he, hp, hpos, hm⟩
      refine ⟨i, (List.getElem?_eq_some_iff.mp he).1, j,
        ⟨(List.getElem?_eq_some_iff.mp hp).1, ?_⟩, rfl, rfl⟩
      rw [he, hp]
      exact (joinTest_iff e p).mpr ⟨hpos, hm⟩
  · unfold matchingPairs
    rw [List.pairwise_flatMap]
    constructor
    · intro i _
      rw [List.pairwise_map]
      apply List.Pairwise.filter
      exact (List.pairwise_lt_range _).imp (fun h => Or.inr ⟨rfl, h⟩)
    · apply (List.pairwise_lt_range _).imp
      intro i1 i2 hlt x hx y hy
      obtain ⟨_, _, rfl⟩ := List.mem_map.mp hx
      obtain ⟨_, _, rfl⟩ := List.mem_map.mp hy
      exact Or.inl hlt

/-- C4: for every catalog, `generateCartItemsFrom` returns the absent result
for an absent cart, and for the empty cart a defined result with no line item
(and the catalog untouched); the two results differ. -/
theorem C4_absent_vs_empty (catalog : List Product) :
    generateCartItemsFrom none catalog = none ∧
    generateCartItemsFrom (some []) catalog = some ⟨catalog, []⟩ ∧
    (generateCartItemsFrom (some []) catalog).map lineItems = some [] ∧
    generateCartItemsFrom none catalog ≠ generateCartItemsFrom (some []) catalog := by
  refine ⟨rfl, rfl, rfl, ?_⟩
  intro h
  cases h

/-- C5: for every defined cart and every catalog, removing the entries with
`qty <= 0` from the cart changes neither the result of `generateCartItemsFrom`
nor the store it leaves; when every entry has `qty <= 0` the result is the
empty sequence and the catalog is untouched. -/
theorem C5_nonpositive_qty_ignored (cart : List CartEntry) (catalog : List Product) :
    generateCartItemsFrom (some cart) catalog =
      generateCartItemsFrom (some (cart.filter (fun e => decide (e.qty > 0)))) catalog ∧
    ((∀ e ∈ cart, e.qty ≤ 0) →
      generateCartItemsFrom (some cart) catalog = some ⟨catalog, []⟩ ∧
      (generateCartItemsFrom (some cart) catalog).map lineItems = some []) := by
  have h1 : generateCartItemsFrom (some cart) catalog =
      generateCartItemsFrom (some (cart.filter (fun e => decide (e.qty > 0)))) catalog := by
    symm
    apply generateCartItemsFrom_filter
    intro e _ hk q _
    have hq : ¬ e.qty > 0 := by simpa using hk
    simp [joinTest, hq]
  refine ⟨h1, ?_⟩
  intro hall
  have hnil : cart.filter (fun e => decide (e.qty > 0)) = [] := by
    rw [List.filter_eq_nil_iff]
    intro e he
    have := hall e he
    simp
    omega
  have h2 : generateCartItemsFrom (some cart) catalog = some ⟨catalog, []⟩ := by
    rw [h1, hnil]
    rfl
  exact ⟨h2, by rw [h2]; rfl⟩

/-- C5 at the cart `[{p1, 0}, {p2, -1}]` and the catalog `[p1, p2]`: no line
item, catalog untouched. -/
theorem C5_nonpositive_qty_ignored_witness :
    (∀ e ∈ [(⟨"p1", none, 0⟩ : CartEntry), ⟨"p2", none, -1⟩], e.qty ≤ 0) ∧
    generateCartItemsFrom (some [⟨"p1", none, 0⟩, ⟨"p2", none, -1⟩])
        [mkProduct "p1" 100, mkProduct "p2" 50] =
      some ⟨[mkProduct "p1" 100, mkProduct "p2" 50], []⟩ :=
  ⟨by decide,
    ((C5_nonpositive_qty_ignored [⟨"p1", none, 0⟩, ⟨"p2", none, -1⟩]
      [mkProduct "p1" 100, mkProduct "p2" 50]).2 (by decide)).1⟩

/-- C6 (as stated, refuted): with the cart `[{productId: "p1", qty: 2}]` and
the catalog `[p1]`, whose product has no `qty` field, the catalog after the
call is not the catalog before it: its product now has `qty = 2`. -/
theorem C6_catalog_written_counterexample :
    ∃ s, generateCartItemsFrom (some [⟨"p1", none, 2⟩]) [mkProduct "p1" 100] = some s ∧
      s.productsData ≠ [mkProduct "p1" 100] ∧
      s.productsData = [{ mkProduct "p1" 100 with qty := some 2 }] := by
  refine ⟨_, rfl, ?_⟩
  decide

/-- C6 (amended): for every defined cart and every catalog, after
`generateCartItemsFrom` the catalog has the same products in the same order
with every field other than `qty` as before; a product at which no cart entry
passes the test of the join is unchanged in all its fields; and a product at
which some entry passes has its `qty` overwritten with the `qty` of the last
such entry in cart order. -/
theorem C6_qty_written_rest_kept (cart : List CartEntry) (catalog : List Product) :
    ∃ s, generateCartItemsFrom (some cart) catalog = some s ∧
      s.productsData.length = catalog.length ∧
      s.productsData.map eraseQty = catalog.map eraseQty ∧
      s.productsData = catalog.map (fun p =>
        match (cart.filter (fun e => joinTest e p)).getLast? with
        | none => p
        | some e => { p with qty := some e.qty }) ∧
      (∀ (j : Nat) (p : Product), catalog[j]? = some p → (∀ e ∈ cart, joinTest e p = false) →
        s.productsData[j]? = some p) ∧
      (∀ (j : Nat) (p : Product) (e : CartEntry), catalog[j]? = some p → e ∈ cart →
        joinTest e p = true →
        ∃ e2 ∈ cart, joinTest e2 p = true ∧
          s.productsData[j]? = some { p with qty := some e2.qty }) := by
  refine ⟨_, generateCartItemsFrom_eq cart catalog, by simp, ?_, ?_, ?_, ?_⟩
  · rw [List.map_map]
    apply List.map_congr_left
    intro p _
    exact eraseQty_writeAll cart p
  · apply List.map_congr_left
    intro p _
    exact writeAll_eq_last cart p
  · intro j p hj hidle
    rw [List.getElem?_map, hj, Option.map_some', writeAll_idle cart p hidle]
  · intro j p e hj he ht
    have hne : cart.filter (fun e => joinTest e p) ≠ [] := by
      intro hnil
      have hmem : e ∈ cart.filter (fun e => joinTest e p) := List.mem_filter.mpr ⟨he, ht⟩
      rw [hnil] at hmem
      cases hmem
    cases hl : (cart.filter (fun e => joinTest e p)).getLast? with
    | none => exact absurd (List.getLast?_eq_none_iff.mp hl) hne
    | some e2 =>
      have hmem := List.mem_of_getLast?_eq_some hl
      obtain ⟨h2, ht2⟩ := List.mem_filter.mp hmem
      refine ⟨e2, h2, ht2, ?_⟩
      rw [List.getElem?_map, hj, Option.map_some', writeAll_eq_last cart p, hl]

/-- C6 (amended) at the cart `[{p1, 2}]` and the catalog `[p1, p2]`: the
product `p2`, matched by no entry, is unchanged at index 1, and the product
`p1` at index 0 has `qty = 2`. -/
theorem C6_qty_written_rest_kept_witness :
    ([mkProduct "p1" 100, mkProduct "p2" 50][1]? = some (mkProduct "p2" 50)) ∧
    (∀ e ∈ [(⟨"p1", none, 2⟩ : CartEntry)], joinTest e (mkProduct "p2" 50) = false) ∧
    ∃ s, generateCartItemsFrom (some [⟨"p1", none, 2⟩])
        [mkProduct "p1" 100, mkProduct "p2" 50] = some s ∧
      s.productsData[1]? = some (mkProduct "p2" 50) ∧
      s.productsData = [{ mkProduct "p1" 100 with qty := some 2 }, mkProduct "p2" 50] := by
  obtain ⟨s, hs, _, _, hw, h, _⟩ :=
    C6_qty_written_rest_kept [⟨"p1", none, 2⟩] [mkProduct "p1" 100, mkProduct "p2" 50]
  exact ⟨rfl, by decide, s, hs, h 1 (mkProduct "p2" 50) rfl (by decide), by rw [hw]; decide⟩

/-- C7 (as stated, refuted): for the items
`[{cost: 9007199254740992, qty: 1}, {cost: 1, qty: 1}]`, whose costs and
quantities are integers, `getTotalCartValue` returns `9007199254740992`, which
is not the sum `9007199254740993` of `cost * qty`: the sum is not a double. -/
theorem C7_rounded_total_counterexample :
    (∀ it ∈ [{ mkProduct "a" 9007199254740992 with qty := some 1 },
        { mkProduct "b" 1 with qty := some 1 }], it.qty.isSome = true) ∧
    getTotalCartValue (some [{ mkProduct "a" 9007199254740992 with qty := some 1 },
        { mkProduct "b" 1 with qty := some 1 }]) = JSNumber.finite 9007199254740992 ∧
    getTotalCartValue (some [{ mkProduct "a" 9007199254740992 with qty := some 1 },
        { mkProduct "b" 1 with qty := some 1 }]) ≠
      JSNumber.finite (([{ mkProduct "a" 9007199254740992 with qty := some 1 },
        { mkProduct "b" 1 with qty := some 1 }].map lineValue).sum) := by
  have h : getTotalCartValue (some [{ mkProduct "a" 9007199254740992 with qty := some 1 },
      { mkProduct "b" 1 with qty := some 1 }]) = JSNumber.finite 9007199254740992 := by decide
  refine ⟨by decide, h, ?_⟩
  rw [h]
  decide

/-- C7 (amended): for every sequence of line items with integer `cost` and
`qty` in which every product `cost * qty` and every partial sum of the
products has magnitude at most `2^53`, `getTotalCartValue` is the sum of
`cost * qty` over the items; it is 0 for the empty sequence and for an absent
argument. -/
theorem C7_total_is_sum_when_exact (items : List Product)
    (h : ∀ it ∈ items, it.qty.isSome = true)
    (hprod : ∀ it ∈ items, (lineValue it).natAbs ≤ 9007199254740992)
    (hsum : ∀ k, k ≤ items.length →
      (((items.take k).map lineValue).sum).natAbs ≤ 9007199254740992) :
    getTotalCartValue (some items) = JSNumber.finite ((items.map lineValue).sum) ∧
    getTotalCartValue (some []) = JSNumber.finite 0 ∧
    getTotalCartValue none = JSNumber.finite 0 := by
  refine ⟨?_, rfl, rfl⟩
  have := foldl_totalStep items 0 h hprod (by simpa using hsum)
  simpa [getTotalCartValue] using this

/-- C7 (amended) at `[{cost: 100, qty: 2}, {cost: 50, qty: 1}]`: the total is
250. -/
theorem C7_total_is_sum_when_exact_witness :
    (∀ it ∈ [{ mkProduct "a" 100 with qty := some 2 }, { mkProduct "b" 50 with qty := some 1 }],
      it.qty.isSome = true) ∧
    getTotalCartValue
      (some [{ mkProduct "a" 100 with qty := some 2 }, { mkProduct "b" 50 with qty := some 1 }]) =
      JSNumber.finite 250 :=
  ⟨by decide,
    (C7_total_is_sum_when_exact
      [{ mkProduct "a" 100 with qty := some 2 }, { mkProduct "b" 50 with qty := some 1 }]
      (by decide) (by decide) (by decide)).1⟩

/-- C8: `getTotalItems` is the number of line items of the sequence, 0 for an
absent or empty argument, whatever the `qty` fields hold: rewriting every
`qty` leaves it unchanged, and one item with `qty = 5` gives 1. -/
theorem C8_count_is_length (items : List Product) (f : Product → Option Int) :
    getTotalItems (some items) = items.length ∧
    getTotalItems none = 0 ∧
    getTotalItems (some []) = 0 ∧
    getTotalItems (some (items.map (fun it => { it with qty := f it }))) =
      getTotalItems (some items) ∧
    getTotalItems (some [{ mkProduct "a" 100 with qty := some 5 }]) = 1 := by
  simp [getTotalItems]

/-- C9: `isItemInCart items p` is `true` exactly when some element of `items`
has `_id = p`; it is a total function, and `false` on the empty sequence. -/
theorem C9_isItemInCart_iff (items : List Product) (p : String) :
    (isItemInCart items p = true ↔ ∃ it ∈ items, it._id = p) ∧
    isItemInCart [] p = false := by
  refine ⟨?_, rfl⟩
  induction items with
  | nil => simp [isItemInCart]
  | cons it rest ih =>
    by_cases h : it._id = p
    · simp [isItemInCart, h]
    · simp [isItemInCart, h, ih]

/-- C10 (as stated, refuted): for the catalog
`[p1 cost 9007199254740992, p2 cost 1]` and the cart
`[{productId: p1, qty: 1}, {productId: p2, qty: 1}]`, with distinct ids and no
secondary `_id`, the total of the line items is `9007199254740992`, not the
sum `9007199254740993` of `qty * cost`. -/
theorem C10_rounded_total_counterexample :
    (([mkProduct "p1" 9007199254740992, mkProduct "p2" 1].map (fun p => p._id)).Nodup) ∧
    (([(⟨"p1", none, 1⟩ : CartEntry), ⟨"p2", none, 1⟩].map (fun e => e.productId)).Nodup) ∧
    (∀ e ∈ [(⟨"p1", none, 1⟩ : CartEntry), ⟨"p2", none, 1⟩], e._id = none) ∧
    ∃ s, generateCartItemsFrom (some [⟨"p1", none, 1⟩, ⟨"p2", none, 1⟩])
        [mkProduct "p1" 9007199254740992, mkProduct "p2" 1] = some s ∧
      getTotalCartValue (some (lineItems s)) = JSNumber.finite 9007199254740992 ∧
      getTotalCartValue (some (lineItems s)) ≠
        JSNumber.finite (((pricedEntries [⟨"p1", none, 1⟩, ⟨"p2", none, 1⟩]
          [mkProduct "p1" 9007199254740992, mkProduct "p2" 1]).map
          (fun e => e.qty * costOf [mkProduct "p1" 9007199254740992, mkProduct "p2" 1]
            e.productId)).sum) := by
  have h : getTotalCartValue (some (lineItems
      (joinOuter [⟨"p1", none, 1⟩, ⟨"p2", none, 1⟩]
        ⟨[mkProduct "p1" 9007199254740992, mkProduct "p2" 1], []⟩))) =
      JSNumber.finite 9007199254740992 := by decide
  refine ⟨by decide, by decide, by decide, _, rfl, h, ?_⟩
  rw [h]
  decide

/-- C10 (amended): for every catalog with integer costs and pairwise distinct
`_id` and every cart with pairwise distinct `productId` and no secondary
`_id`, such that every product `qty * cost` of a cart entry with `qty > 0`
whose `productId` is the `_id` of a catalog product, and every partial sum of
these products in cart order, has magnitude at most `2^53`: the total of the
line items of `generateCartItemsFrom` is the sum of these products, and their
count is the number of those entries. -/
theorem C10_end_to_end_total_and_count (cart : List CartEntry) (catalog : List Product)
    (hcat : (catalog.map (fun p => p._id)).Nodup)
    (hcart : (cart.map (fun e => e.productId)).Nodup)
    (hsec : ∀ e ∈ cart, e._id = none)
    (hprod : ∀ x ∈ (pricedEntries cart catalog).map
      (fun e => e.qty * costOf catalog e.productId), x.natAbs ≤ 9007199254740992)
    (hsum : ∀ k, k ≤ (pricedEntries cart catalog).length →
      ((((pricedEntries cart catalog).map
        (fun e => e.qty * costOf catalog e.productId)).take k).sum).natAbs ≤
        9007199254740992) :
    ∃ s, generateCartItemsFrom (some cart) catalog = some s ∧
      getTotalCartValue (some (lineItems s)) =
        JSNumber.finite (((pricedEntries cart catalog).map
          (fun e => e.qty * costOf catalog e.productId)).sum) ∧
      getTotalItems (some (lineItems s)) = (pricedEntries cart catalog).length := by
  obtain ⟨h1, h2⟩ := lineItems_priced cart catalog hcat hcart hsec cart (fun _ h => h)
  refine ⟨_, generateCartItemsFrom_eq cart catalog, ?_, ?_⟩
  · rw [lineItems_eq]
    have hf := foldl_totalStep _ 0 h1
      (by
        intro it hit
        apply hprod
        rw [← h2]
        exact List.mem_map_of_mem _ hit)
      (by
        intro k hk
        rw [zero_add, List.map_take, h2]
        apply hsum k
        have hl := congrArg List.length h2
        simp only [List.length_map] at hl
        rw [← hl]
        exact hk)
    rw [h2, zero_add] at hf
    simpa [getTotalCartValue] using hf
  · rw [lineItems_eq]
    have hl := congrArg List.length h2
    simp only [List.length_map] at hl
    simpa [getTotalItems] using hl

/-- C10 (amended) at the catalog `[p1 cost 100, p2 cost 50]` and the cart
`[{productId: p1, qty: 2}]`: one line item, for `p1` with `qty = 2`; total 200;
count 1. -/
theorem C10_end_to_end_total_and_count_witness :
    (([mkProduct "p1" 100, mkProduct "p2" 50].map (fun p => p._id)).Nodup) ∧
    (([(⟨"p1", none, 2⟩ : CartEntry)].map (fun e => e.productId)).Nodup) ∧
    (∀ e ∈ [(⟨"p1", none, 2⟩ : CartEntry)], e._id = none) ∧
    ∃ s, generateCartItemsFrom (some [⟨"p1", none, 2⟩])
        [mkProduct "p1" 100, mkProduct "p2" 50] = some s ∧
      lineItems s = [{ mkProduct "p1" 100 with qty := some 2 }] ∧
      getTotalCartValue (some (lineItems s)) = JSNumber.finite 200 ∧
      getTotalItems (some (lineItems s)) = 1 := by
  have hcat : (([mkProduct "p1" 100, mkProduct "p2" 50].map (fun p => p._id)).Nodup) := by decide
  have hcart : (([(⟨"p1", none, 2⟩ : CartEntry)].map (fun e => e.productId)).Nodup) := by decide
  have hsec : ∀ e ∈ [(⟨"p1", none, 2⟩ : CartEntry)], e._id = none := by decide
  obtain ⟨s, hs, ht, hn⟩ := C10_end_to_end_total_and_count [⟨"p1", none, 2⟩]
    [mkProduct "p1" 100, mkProduct "p2" 50] hcat hcart hsec (by decide) (by decide)
  refine ⟨hcat, hcart, hsec, s, hs, ?_, ?_, ?_⟩
  · have hs2 : generateCartItemsFrom (some [⟨"p1", none, 2⟩])
        [mkProduct "p1" 100, mkProduct "p2" 50] =
        some ⟨[{ mkProduct "p1" 100 with qty := some 2 }, mkProduct "p2" 50], [0]⟩ := rfl
    rw [hs2] at hs
    cases hs
    rfl
  · rw [ht]
    decide
  · rw [hn]
    decide

/-- C11 (the code at the failing input): with an absent token (`null`, or the
empty string) `addToCart` sends no request, leaves the cart state unchanged and
raises exactly one notification, the request to log in; but the variant it
passes is the string `"Warning"`, not the severity `"warning"` that the
duplicate check of the same function passes. -/
theorem C11_no_token_variant_misspelt (items : Option (List Product)) (products : List Product)
    (productId : String) (qty : Int) (options : Option Bool) (reply : PostReply)
    (view : CartView) :
    addToCart none items products productId qty options reply view =
      { view := view, posts := [],
        snackbars := [⟨"Login to add item to the Cart", "Warning"⟩],
        logged := false, thrown := false } ∧
    addToCart (some "") items products productId qty options reply view =
      addToCart none items products productId qty options reply view ∧
    (∀ n ∈ (addToCart none items products productId qty options reply view).snackbars,
      n.variant ≠ "warning") ∧
    (addToCart (some "t") (some [mkProduct "p1" 100]) products "p1" qty (some true) reply
      view).snackbars.map (fun n => n.variant) = ["warning"] := by
  refine ⟨rfl, rfl, ?_, rfl⟩
  intro n hn
  have hn2 : n = ⟨"Login to add item to the Cart", "Warning"⟩ := by
    simpa [addToCart] using hn
  rw [hn2]
  decide

/-- C12: for every present token, items list and product id `p`, `addToCart`
with `preventDuplicate` set and `isItemInCart(items, p)` true sends no request,
leaves the cart state unchanged and raises one notification of variant
`"warning"`, whose message is not the message raised for an absent token. -/
theorem C12_duplicate_refused (tok : String) (htok : tok ≠ "") (items : List Product)
    (products : List Product) (p : String) (qty : Int) (reply : PostReply) (view : CartView)
    (hin : isItemInCart items p = true) :
    addToCart (some tok) (some items) products p qty (some true) reply view =
      { view := view, posts := [],
        snackbars :=
          [⟨"Item already in cart. Use the cart sidebar to update quantity or remove item.",
            "warning"⟩],
        logged := false, thrown := false } ∧
    ∀ a ∈ (addToCart (some tok) (some items) products p qty (some true) reply view).snackbars,
      a.variant = "warning" ∧
      ∀ b ∈ (addToCart none (some items) products p qty (some true) reply view).snackbars,
        a.message ≠ b.message := by
  have h : addToCart (some tok) (some items) products p qty (some true) reply view =
      { view := view, posts := [],
        snackbars :=
          [⟨"Item already in cart. Use the cart sidebar to update quantity or remove item.",
            "warning"⟩],
        logged := false, thrown := false } := by
    simp [addToCart, htok, hin]
  refine ⟨h, ?_⟩
  rw [h]
  intro a ha
  have ha2 : a = ⟨"Item already in cart. Use the cart sidebar to update quantity or remove item.",
      "warning"⟩ := by simpa using ha
  rw [ha2]
  refine ⟨rfl, ?_⟩
  intro b hb
  have hb2 : b = ⟨"Login to add item to the Cart", "Warning"⟩ := by
    simpa [addToCart] using hb
  rw [hb2]
  decide

/-- C12 with the token `"t"`, the items `[p1]` and the product id `"p1"`. -/
theorem C12_duplicate_refused_witness :
    ("t" ≠ "") ∧ isItemInCart [mkProduct "p1" 100] "p1" = true ∧
    (addToCart (some "t") (some [mkProduct "p1" 100]) [mkProduct "p1" 100] "p1" 1 (some true)
      (PostReply.resolved (some [⟨"p1", none, 1⟩])) ⟨some [], some ⟨[], []⟩⟩).posts = [] := by
  have h := (C12_duplicate_refused "t" (by decide) [mkProduct "p1" 100] [mkProduct "p1" 100]
    "p1" 1 (PostReply.resolved (some [⟨"p1", none, 1⟩])) ⟨some [], some ⟨[], []⟩⟩ (by decide)).1
  exact ⟨by decide, by decide, by rw [h]⟩

/-- C13 (the code at the failing input): when the request of `addToCart`
rejects, the cart state is unchanged and exactly one request was sent, but no
notification is raised: the `catch` block only runs `console.log(e)`. -/
theorem C13_failed_post_not_notified (items : Option (List Product)) (products : List Product)
    (productId : String) (qty : Int) (view : CartView) :
    addToCart (some "token") items products productId qty none PostReply.rejected view =
      { view := view, posts := [⟨"token", productId, qty⟩], snackbars := [],
        logged := true, thrown := false } ∧
    (addToCart (some "token") items products productId qty none PostReply.rejected
      view).snackbars.length = 0 ∧
    (addToCart (some "token") (some []) products productId qty (some true) PostReply.rejected
      view).snackbars.length = 0 := by
  refine ⟨rfl, rfl, rfl⟩

/-- C14 (the code at the failing input): `debounceSearch` cancels nothing, it
only adds a timer; two events 100 ms apart with a delay of 500 ms leave two
timers pending at once, and both fire: `performSearch` is called with `"a"`
and with `"ab"`. -/
theorem C14_debounce_cancels_nothing (value : String) (debounceTimeout : Nat)
    (s : SearchState) :
    (debounceSearch value debounceTimeout s).timers =
      s.timers ++ [⟨s.nextHandle, s.now + debounceTimeout, value⟩] ∧
    (typeAll 500 [(0, "a"), (100, "ab")] ⟨0, 0, [], []⟩).timers.length = 2 ∧
    (advance 1000 (typeAll 500 [(0, "a"), (100, "ab")] ⟨0, 0, [], []⟩)).searches =
      ["a", "ab"] := by
  refine ⟨rfl, ?_, ?_⟩ <;> decide

/-- C15 (the code at the failing input): for the form
`{ username: "abcdef", password: "secret1", confirmPassword: "secret2" }`
`validateInput` raises the warning `passwords do not match` and returns
`true`, and `register` sends the request to the backend. -/
theorem C15_mismatch_not_blocked :
    validateInput ⟨"abcdef", "secret1", "secret2"⟩ =
      (true, [⟨"passwords do not match", "warning"⟩]) ∧
    (register ⟨"abcdef", "secret1", "secret2"⟩ RegisterReply.resolved).posts =
      [⟨"abcdef", "secret1"⟩] ∧
    (register ⟨"abcdef", "secret1", "secret2"⟩ RegisterReply.resolved).pushed =
      some "/login" := by
  decide

/-- C16: for every defined cart, every catalog and every product id `p`,
`isItemInCart` on the line items of `generateCartItemsFrom(cart, catalog)` is
`true` if and only if the catalog has a product with `_id = p` and the cart has
an entry with `qty > 0` whose `productId` or `_id` is `p`. -/
theorem C16_membership_agrees_with_join (cart : List CartEntry) (catalog : List Product)
    (p : String) :
    ∃ s, generateCartItemsFrom (some cart) catalog = some s ∧
      (isItemInCart (lineItems s) p = true ↔
        (∃ q ∈ catalog, q._id = p) ∧
          ∃ e ∈ cart, e.qty > 0 ∧ (e.productId = p ∨ e._id = some p)) := by
  refine ⟨_, generateCartItemsFrom_eq cart catalog, ?_⟩
  rw [isItemInCart_true_iff]
  exact exists_lineItem_id_iff cart catalog _ (generateCartItemsFrom_eq cart catalog) p

end QKart
